import Mathlib

/-!
Verification development for the Presto native worker's `TaskManager`
(presto_cpp/main/TaskManager.h). The repository provides the class
declaration; the behaviour of each operation is modelled from the
specification of the task-lifecycle layer (registry of task state
objects, create-or-update semantics, long-poll dispatch, buffer
acknowledgement, cleanup of old terminal tasks, driver yielding and
spill-path construction).
-/

namespace Presto

/-- The five task lifecycle states (velox `TaskState`, spec §3). -/
inductive TaskState where
  | Running
  | Finished
  | Canceled
  | Failed
  | Aborted
deriving DecidableEq, Repr

/-- A state is terminal when it is Finished, Canceled, Failed or Aborted. -/
def TaskState.isTerminal : TaskState → Bool
  | .Running => false
  | _ => true

/-- Task identifiers are opaque strings (spec §3). -/
abbrev TaskId := String

/-- Captured error information stored on a failed task. -/
structure ErrorInfo where
  message : String
deriving DecidableEq, Repr

/-- Modelled from the spec: the Task State Object of §3 — per-task
aggregate kept in the Task Registry (the C++ `PrestoTask` is not under
src/, only `TaskManager.h` is). `terminalAt` records when the task
entered a terminal state, used by the cleanup sweep. `pendingWaiters`
counts registered long-poll continuations. -/
structure PrestoTask where
  id : TaskId
  state : TaskState
  createdAt : Nat
  terminalAt : Nat
  numRunningDrivers : Nat
  numBlockedDrivers : Nat
  error : Option ErrorInfo
  sources : List String
  outputBuffers : List Nat
  pendingWaiters : Nat
deriving DecidableEq, Repr

/-- The Task Registry: mapping TaskId → Task State Object (spec §3),
embedded as an association list with unique keys. -/
abbrev TaskMap := List (TaskId × PrestoTask)

/-- Registry lookup. -/
def lookupTask (m : TaskMap) (tid : TaskId) : Option PrestoTask :=
  match m with
  | [] => none
  | (k, t) :: rest => if k = tid then some t else lookupTask rest tid

/-- Number of registry entries bound to a given id. -/
def countKey (m : TaskMap) (tid : TaskId) : Nat :=
  (m.filter (fun p => p.1 = tid)).length

/-- Replace the entry bound to `tid` by `t` (all occurrences), keeping
every key in place. -/
def replaceTask (m : TaskMap) (tid : TaskId) (t : PrestoTask) : TaskMap :=
  match m with
  | [] => []
  | (k, u) :: rest => (k, if k = tid then t else u) :: replaceTask rest tid t

/-- A registry is well formed when its keys are unique (spec §3:
"Exactly one Task State Object exists per TaskId at any time"). -/
abbrev wfMap (m : TaskMap) : Prop :=
  (m.map Prod.fst).Nodup

/-- The update payload of a create-or-update call: incremental sources
(splits) and the output-buffer set (spec §4.1). -/
structure UpdateRequest where
  sources : List String
  outputBuffers : List Nat
deriving DecidableEq, Repr

/-- The snapshot returned by task-manager calls (spec §4.1): state,
error and accounting of the task at the instant of the call. -/
structure TaskInfo where
  taskId : TaskId
  state : TaskState
  error : Option ErrorInfo
  numRunningDrivers : Nat
  outputBuffers : List Nat
deriving DecidableEq, Repr

/-- Snapshot of a task state object. -/
def taskInfoOf (t : PrestoTask) : TaskInfo :=
  { taskId := t.id
    state := t.state
    error := t.error
    numRunningDrivers := t.numRunningDrivers
    outputBuffers := t.outputBuffers }

/-- Modelled from the spec: merging an incremental update into an
existing task (§4.1: "merges incremental updates (additional
splits/sources, updated output-buffer set) into the running task
without restarting it … the second call observes the first's effects
and applies only the delta"). Only sources not already present are
appended; the output-buffer set is replaced by the request's; the
lifecycle state is untouched. -/
def mergeUpdate (t : PrestoTask) (req : UpdateRequest) : PrestoTask :=
  { t with
    sources := t.sources ++ req.sources.filter (fun s => ¬ s ∈ t.sources)
    outputBuffers := req.outputBuffers }

/-- Modelled from the spec: the fresh Task State Object created on the
first create-or-update call for a task id (§3 lifecycle): Running, no
error, bound to the request's sources and buffers. -/
def newTask (tid : TaskId) (req : UpdateRequest) (now : Nat) : PrestoTask :=
  { id := tid
    state := .Running
    createdAt := now
    terminalAt := 0
    numRunningDrivers := 1
    numBlockedDrivers := 0
    error := none
    sources := req.sources
    outputBuffers := req.outputBuffers
    pendingWaiters := 0 }

/-- Modelled from the spec: `createOrUpdateTask` (§4.1; declared at
TaskManager.h:58, implementation not under src/). If no Task State
Object exists for the id, one is created and execution starts; if one
exists, the update is merged without restarting the task. Returns the
new registry and the snapshot. -/
def createOrUpdateTask (m : TaskMap) (tid : TaskId) (req : UpdateRequest)
    (now : Nat) : TaskMap × TaskInfo :=
  match lookupTask m tid with
  | none =>
      let t := newTask tid req now
      ((tid, t) :: m, taskInfoOf t)
  | some t =>
      let t' := mergeUpdate t req
      (replaceTask m tid t', taskInfoOf t')

/-- Modelled from the spec: the empty Task State Object synthesized
for an error-reporting task — Failed, carrying the error, with no
driver ever started. -/
def errorTask (tid : TaskId) (e : ErrorInfo) (now : Nat) : PrestoTask :=
  { id := tid
    state := .Failed
    createdAt := now
    terminalAt := now
    numRunningDrivers := 0
    numBlockedDrivers := 0
    error := some e
    sources := []
    outputBuffers := []
    pendingWaiters := 0 }

/-- Modelled from the spec: `createOrUpdateErrorTask` (§4.1; declared
at TaskManager.h:54): synthesizes or updates a Task State Object
directly into Failed state carrying the given error, without ever
running a fragment. -/
def createOrUpdateErrorTask (m : TaskMap) (tid : TaskId) (e : ErrorInfo)
    (now : Nat) : TaskMap × TaskInfo :=
  match lookupTask m tid with
  | none =>
      ((tid, errorTask tid e now) :: m, taskInfoOf (errorTask tid e now))
  | some t =>
      let t' := { t with state := .Failed, error := some e, terminalAt := now }
      (replaceTask m tid t', taskInfoOf t')

/-- Modelled from the spec: `deleteTask` (§4.1; declared at
TaskManager.h:80): transitions a non-terminal task to Canceled
(graceful) or Aborted (abort = true), wakes all pending waiters, and
is idempotent on terminal or absent tasks. -/
def deleteTask (m : TaskMap) (tid : TaskId) (abort : Bool) (now : Nat) :
    TaskMap × Option TaskInfo :=
  match lookupTask m tid with
  | none => (m, none)
  | some t =>
      if t.state.isTerminal then (m, some (taskInfoOf t))
      else
        let t' := { t with
          state := if abort then .Aborted else .Canceled
          terminalAt := now
          pendingWaiters := 0 }
        (replaceTask m tid t', some (taskInfoOf t'))

/-- Progress reported by a driver thread back into the task state
object (spec §6: the execution engine "reports progress/errors back
into the Task State Object"). -/
inductive ProgressEvent where
  | stats (running blocked : Nat)
  | finished
  | failed (e : ErrorInfo)
deriving DecidableEq, Repr

/-- Modelled from the spec: a driver progress callback. Progress only
applies to a Running task: a terminal task no longer executes (spec
glossary: terminal means no further execution occurs), so a late
callback is a no-op. -/
def applyProgress (m : TaskMap) (tid : TaskId) (ev : ProgressEvent)
    (now : Nat) : TaskMap :=
  match lookupTask m tid with
  | none => m
  | some t =>
      if t.state.isTerminal then m
      else
        let t' :=
          match ev with
          | .stats r b => { t with numRunningDrivers := r, numBlockedDrivers := b }
          | .finished => { t with state := .Finished, terminalAt := now,
                                  numRunningDrivers := 0 }
          | .failed e => { t with state := .Failed, error := some e,
                                  terminalAt := now, numRunningDrivers := 0 }
        replaceTask m tid t'

/-- The Task Manager operations named by the lifecycle-monotonicity
claim: create-or-update calls, delete, and driver progress callbacks. -/
inductive LifecycleOp where
  | create (tid : TaskId) (req : UpdateRequest) (now : Nat)
  | createError (tid : TaskId) (e : ErrorInfo) (now : Nat)
  | delete (tid : TaskId) (abort : Bool) (now : Nat)
  | progress (tid : TaskId) (ev : ProgressEvent) (now : Nat)
deriving Repr

/-- Apply one lifecycle operation to the registry. -/
def lifecycleStep (m : TaskMap) : LifecycleOp → TaskMap
  | .create tid req now => (createOrUpdateTask m tid req now).1
  | .createError tid e now => (createOrUpdateErrorTask m tid e now).1
  | .delete tid abort now => (deleteTask m tid abort now).1
  | .progress tid ev now => applyProgress m tid ev now

/-- Apply a sequence of lifecycle operations. -/
def lifecycleRun (m : TaskMap) : List LifecycleOp → TaskMap
  | [] => m
  | op :: ops => lifecycleRun (lifecycleStep m op) ops

/-- Modelled from the spec: the removal condition of the cleanup sweep
(§4.1 `cleanOldTasks`, declared at TaskManager.h:86): the task is in a
terminal state, its age since becoming terminal has reached the
configured retention threshold, and it has no still-pending waiter. -/
def shouldClean (now threshold : Nat) (t : PrestoTask) : Bool :=
  t.state.isTerminal && decide (threshold ≤ now - t.terminalAt)
    && decide (t.pendingWaiters = 0)

/-- Modelled from the spec: `cleanOldTasks` (§4.1): scans the registry,
removes every task satisfying the removal condition, and returns the
new registry together with the number of tasks removed. -/
def cleanOldTasks (m : TaskMap) (now threshold : Nat) : TaskMap × Nat :=
  let kept := m.filter (fun p => !(shouldClean now threshold p.2))
  (kept, m.length - kept.length)

/-- The task-status snapshot returned by long polls. -/
structure TaskStatusSnap where
  taskId : TaskId
  state : TaskState
  error : Option ErrorInfo
deriving DecidableEq, Repr

/-- Status snapshot of a task state object. -/
def statusSnap (t : PrestoTask) : TaskStatusSnap :=
  { taskId := t.id, state := t.state, error := t.error }

/-- Modelled from the spec: the long-poll protocol of `getTaskStatus`
(§4.2, declared at TaskManager.h:106). The mutation timeline `muts` is
the chronologically ordered sequence of state-affecting mutations of
the task after the call, each with the time it commits and the
snapshot it produces. The result is `none` for NotFound, otherwise the
resolution time and the snapshot delivered:

1. task absent → fails immediately (NotFound);
2. `currentState` absent or different from the task's state →
   resolves at once with the current snapshot;
3. otherwise a waiter is registered and resolves on the first
   mutation before `maxWait`, or with the unchanged snapshot when
   `maxWait` elapses. -/
def getTaskStatusPoll (m : TaskMap) (tid : TaskId)
    (currentState : Option TaskState) (maxWait : Nat)
    (muts : List (Nat × TaskStatusSnap)) : Option (Nat × TaskStatusSnap) :=
  match lookupTask m tid with
  | none => none
  | some t =>
      if currentState = some t.state then
        match muts.find? (fun p => decide (p.1 < maxWait)) with
        | some p => some p
        | none => some (maxWait, statusSnap t)
      else some (0, statusSnap t)

/-- Buffer-controller acknowledgement state: for every (task, buffer)
pair the highest token acknowledged so far. -/
abbrev BufferAckMap := List ((TaskId × Int) × Int)

/-- Modelled from the spec: `acknowledgeResults` (§4.3, declared at
TaskManager.h:50): signals that all data up to `token` of the given
buffer has been consumed; the buffer's acknowledged token only ever
moves forward. -/
def acknowledgeResults (bufs : BufferAckMap) (tid : TaskId)
    (bufferId token : Int) : BufferAckMap :=
  bufs.map (fun e => if e.1 = (tid, bufferId) then (e.1, max e.2 token) else e)

/-- The result chunk handed back to a buffer-data poll: page payload
and a completion flag. -/
structure Result where
  data : List Nat
  completed : Bool
deriving DecidableEq, Repr

/-- A pending request for buffer data (spec §3 `ResultRequest`). -/
structure ResultRequest where
  taskId : TaskId
  bufferId : Int
  token : Int
deriving DecidableEq, Repr

/-- The Output Buffer Controller's view: for each task that still has
an output buffer, the pages currently buffered (external collaborator,
spec §2). -/
abbrev BufferDataMap := List (TaskId × List Nat)

/-- Modelled from the spec: `getDataForResultRequests` (§4.3, declared
at TaskManager.h:76 with its comment): each pending request is
fulfilled by querying the controller by task id; when the controller
has no record of the task's buffer the request is fulfilled with an
empty, not-completed Result instead of failing. -/
def getDataForResultRequests (controller : BufferDataMap)
    (pending : List ResultRequest) : List (ResultRequest × Result) :=
  pending.map (fun r =>
    match controller.lookup r.taskId with
    | none => (r, { data := [], completed := false })
    | some pages => (r, { data := pages, completed := true }))

/-- A driver thread of a running task, with the time (micros) at which
it last went on an execution thread. -/
structure Driver where
  taskId : TaskId
  onThreadSinceMicros : Nat
deriving DecidableEq, Repr

/-- Modelled from the spec: `yieldTasks` (§4.4, declared at
TaskManager.h:125): a driver is yieldable only if it has continuously
held its execution thread for at least `timeSliceMicros`; up to
`numTargetThreadsToYield` such drivers are signaled; the number
signaled is returned together with the signaled drivers. -/
def yieldTasks (drivers : List Driver) (nowMicros : Nat)
    (numTargetThreadsToYield timeSliceMicros : Nat) : Nat × List Driver :=
  let yieldable := drivers.filter
    (fun d => decide (timeSliceMicros ≤ nowMicros - d.onThreadSinceMicros))
  let signaled := yieldable.take numTargetThreadsToYield
  (signaled.length, signaled)

/-- Modelled from the spec: `buildTaskSpillDirectoryPath` (§4.5,
declared at TaskManager.h:144): a pure deterministic join of the five
components, one directory per task. -/
def buildTaskSpillDirectoryPath (baseSpillPath nodeIp nodeId queryId : String)
    (taskId : TaskId) : String :=
  baseSpillPath ++ "/" ++ nodeIp ++ "_" ++ nodeId ++ "/" ++ queryId ++ "/"
    ++ taskId ++ "/"

/-- The Task Manager's state: the synchronized task registry
(TaskManager.h:175). -/
structure TaskManager where
  taskMap : TaskMap
deriving Repr

/-- `tasks()` (TaskManager.h:43): returns a copy of the registry map
taken under a read lock; the manager is not modified. -/
def TaskManager.tasks (tm : TaskManager) : TaskManager × TaskMap :=
  (tm, tm.taskMap)

/-- `getNumTasks()` (TaskManager.h:131): the registry's size under a
read lock; the manager is not modified. -/
def TaskManager.getNumTasks (tm : TaskManager) : TaskManager × Nat :=
  (tm, tm.taskMap.length)

/-- A mutating Task Manager operation, for the frame property of the
observers: any lifecycle operation or a cleanup sweep. -/
inductive ManagerOp where
  | lifecycle (op : LifecycleOp)
  | clean (now threshold : Nat)
deriving Repr

/-- Apply a mutating operation to the manager. -/
def managerStep (tm : TaskManager) : ManagerOp → TaskManager
  | .lifecycle op => ⟨lifecycleStep tm.taskMap op⟩
  | .clean now threshold => ⟨(cleanOldTasks tm.taskMap now threshold).1⟩

/-- A finished task used to exercise the theorems on concrete data. -/
def demoFinishedTask : PrestoTask :=
  { id := "t1"
    state := .Finished
    createdAt := 0
    terminalAt := 2
    numRunningDrivers := 0
    numBlockedDrivers := 0
    error := none
    sources := ["s0"]
    outputBuffers := [0]
    pendingWaiters := 0 }

/-- A running task used to exercise the theorems on concrete data. -/
def demoRunningTask : PrestoTask :=
  { id := "t2"
    state := .Running
    createdAt := 1
    terminalAt := 0
    numRunningDrivers := 2
    numBlockedDrivers := 1
    error := none
    sources := ["s1"]
    outputBuffers := [0]
    pendingWaiters := 1 }

/-- A concrete registry holding one finished and one running task. -/
def demoMap : TaskMap := [("t1", demoFinishedTask), ("t2", demoRunningTask)]

/-- Concrete buffer acknowledgement state used by the witnesses. -/
def demoBufs : BufferAckMap := [(("t1", 0), 5), (("t2", 1), 3)]

/-- Concrete Output Buffer Controller contents used by the witnesses. -/
def demoController : BufferDataMap := [("tX", [1, 2])]

/-- Concrete pending result requests used by the witnesses. -/
def demoPending : List ResultRequest := [⟨"tGone", 0, 0⟩]

/-- Concrete driver threads used by the witnesses. -/
def demoDrivers : List Driver := [⟨"t1", 0⟩, ⟨"t2", 90⟩]

/-! ### Registry lemmas -/

theorem lookupTask_cons (k : TaskId) (t : PrestoTask) (m : TaskMap)
    (tid : TaskId) :
    lookupTask ((k, t) :: m) tid = if k = tid then some t else lookupTask m tid :=
  rfl

theorem lookupTask_replace (m : TaskMap) (k : TaskId) (v : PrestoTask)
    (tid : TaskId) :
    lookupTask (replaceTask m k v) tid =
      if k = tid then Option.map (fun _ => v) (lookupTask m tid)
      else lookupTask m tid := by
  induction m with
  | nil =>
    simp only [replaceTask, lookupTask]
    split <;> rfl
  | cons p rest ih =>
    obtain ⟨pk, pt⟩ := p
    simp only [replaceTask, lookupTask]
    by_cases hpk : pk = tid
    · subst hpk
      by_cases hk : k = pk
      · subst hk
        simp
      · have hk' : ¬ pk = k := fun hh => hk hh.symm
        simp [hk, hk']
    · by_cases hk : k = tid
      · subst hk
        have hpk' : ¬ pk = k := hpk
        simp [hpk, hpk', ih]
      · simp [hpk, hk, ih]

theorem replaceTask_of_lookup_none (m : TaskMap) (k : TaskId) (v : PrestoTask)
    (h : lookupTask m k = none) : replaceTask m k v = m := by
  induction m with
  | nil => rfl
  | cons p rest ih =>
    obtain ⟨pk, pt⟩ := p
    simp only [lookupTask] at h
    by_cases hpk : pk = k
    · simp [hpk] at h
    · rw [if_neg hpk] at h
      simp only [replaceTask, if_neg hpk]
      rw [ih h]

/-- One lifecycle operation never moves a task that is already terminal
out of a terminal state, and never drops it from the registry. -/
theorem lifecycleStep_preserves_terminal (m : TaskMap) (op : LifecycleOp)
    (tid : TaskId) (t : PrestoTask) (h : lookupTask m tid = some t)
    (ht : t.state.isTerminal = true) :
    ∃ t', lookupTask (lifecycleStep m op) tid = some t' ∧
      t'.state.isTerminal = true := by
  cases op with
  | create tid' req now =>
    simp only [lifecycleStep, createOrUpdateTask]
    cases hl : lookupTask m tid' with
    | none =>
      refine ⟨t, ?_, ht⟩
      simp only [lookupTask_cons]
      rw [if_neg, h]
      rintro rfl
      rw [h] at hl
      exact Option.noConfusion hl
    | some u =>
      by_cases he : tid' = tid
      · subst he
        rw [h] at hl
        cases hl
        refine ⟨mergeUpdate t req, ?_, ht⟩
        rw [lookupTask_replace, if_pos rfl, h]
        rfl
      · refine ⟨t, ?_, ht⟩
        rw [lookupTask_replace, if_neg he, h]
  | createError tid' e now =>
    simp only [lifecycleStep, createOrUpdateErrorTask]
    cases hl : lookupTask m tid' with
    | none =>
      refine ⟨t, ?_, ht⟩
      simp only [lookupTask_cons]
      rw [if_neg, h]
      rintro rfl
      rw [h] at hl
      exact Option.noConfusion hl
    | some u =>
      by_cases he : tid' = tid
      · subst he
        rw [h] at hl
        cases hl
        refine ⟨{ t with state := .Failed, error := some e, terminalAt := now },
          ?_, rfl⟩
        rw [lookupTask_replace, if_pos rfl, h]
        rfl
      · refine ⟨t, ?_, ht⟩
        rw [lookupTask_replace, if_neg he, h]
  | delete tid' abort now =>
    simp only [lifecycleStep, deleteTask]
    cases hl : lookupTask m tid' with
    | none => exact ⟨t, h, ht⟩
    | some u =>
      by_cases hu : u.state.isTerminal = true
      · simp only [hu, if_true]
        exact ⟨t, h, ht⟩
      · simp only [hu, if_false, Bool.false_eq_true]
        by_cases he : tid' = tid
        · subst he
          rw [h] at hl
          cases hl
          exact absurd ht hu
        · refine ⟨t, ?_, ht⟩
          rw [lookupTask_replace, if_neg he, h]
  | progress tid' ev now =>
    simp only [lifecycleStep, applyProgress]
    cases hl : lookupTask m tid' with
    | none => exact ⟨t, h, ht⟩
    | some u =>
      by_cases hu : u.state.isTerminal = true
      · simp only [hu, if_true]
        exact ⟨t, h, ht⟩
      · simp only [hu, if_false, Bool.false_eq_true]
        by_cases he : tid' = tid
        · subst he
          rw [h] at hl
          cases hl
          exact absurd ht hu
        · refine ⟨t, ?_, ht⟩
          rw [lookupTask_replace, if_neg he, h]

/-- C1: For every task, the lifecycle state is monotonic toward
terminal states: once a task's state is Finished, Canceled, Failed or
Aborted, no sequence of Task Manager operations (create-or-update
calls, deleteTask, driver progress callbacks) ever transitions it back
to Running — any state observed for that task after the sequence is
still terminal, so no observed state sequence contains Running after a
terminal state. -/
theorem taskState_monotonic (m : TaskMap) (ops : List LifecycleOp)
    (tid : TaskId) (t : PrestoTask) (h : lookupTask m tid = some t)
    (ht : t.state.isTerminal = true) :
    ∀ t', lookupTask (lifecycleRun m ops) tid = some t' →
      t'.state.isTerminal = true ∧ t'.state ≠ TaskState.Running := by
  induction ops generalizing m t with
  | nil =>
    intro t' h'
    rw [lifecycleRun] at h'
    rw [h] at h'
    cases h'
    refine ⟨ht, ?_⟩
    intro hr
    rw [hr] at ht
    exact Bool.noConfusion ht
  | cons op ops ih =>
    intro t' h'
    obtain ⟨u, hu, hut⟩ := lifecycleStep_preserves_terminal m op tid t h ht
    exact ih (lifecycleStep m op) u hu hut t' h'

/-- Witness for C1 on concrete data: the finished task `t1` stays
terminal across a progress callback, a duplicate create and a delete. -/
theorem taskState_monotonic_witness :
    lookupTask demoMap "t1" = some demoFinishedTask ∧
    demoFinishedTask.state.isTerminal = true ∧
    lookupTask
        (lifecycleRun demoMap
          [LifecycleOp.progress "t1" (ProgressEvent.stats 3 0) 9,
           LifecycleOp.create "t1" ⟨["s9"], [1]⟩ 10,
           LifecycleOp.delete "t1" true 11]) "t1"
      = some { demoFinishedTask with sources := ["s0", "s9"], outputBuffers := [1] } ∧
    ({ demoFinishedTask with sources := ["s0", "s9"], outputBuffers := [1] } :
        PrestoTask).state.isTerminal = true ∧
    ({ demoFinishedTask with sources := ["s0", "s9"], outputBuffers := [1] } :
        PrestoTask).state ≠ TaskState.Running :=
  ⟨by decide, by decide, by decide,
    taskState_monotonic demoMap
      [LifecycleOp.progress "t1" (ProgressEvent.stats 3 0) 9,
       LifecycleOp.create "t1" ⟨["s9"], [1]⟩ 10,
       LifecycleOp.delete "t1" true 11] "t1" demoFinishedTask
      (by decide) (by decide)
      { demoFinishedTask with sources := ["s0", "s9"], outputBuffers := [1] }
      (by decide)⟩

theorem lookupTask_none_of_not_mem (m : TaskMap) (tid : TaskId)
    (h : ¬ tid ∈ m.map Prod.fst) : lookupTask m tid = none := by
  induction m with
  | nil => rfl
  | cons p rest ih =>
    obtain ⟨pk, pt⟩ := p
    simp only [List.map_cons, List.mem_cons] at h
    push_neg at h
    simp only [lookupTask]
    rw [if_neg (fun hh => h.1 hh.symm)]
    exact ih h.2

theorem countKey_cons (k : TaskId) (t : PrestoTask) (m : TaskMap)
    (tid : TaskId) :
    countKey ((k, t) :: m) tid
      = (if k = tid then 1 else 0) + countKey m tid := by
  simp only [countKey, List.filter_cons]
  by_cases hk : k = tid
  · simp [hk, Nat.add_comm]
  · simp [hk]

theorem countKey_of_lookup_none (m : TaskMap) (tid : TaskId)
    (h : lookupTask m tid = none) : countKey m tid = 0 := by
  induction m with
  | nil => rfl
  | cons p rest ih =>
    obtain ⟨pk, pt⟩ := p
    simp only [lookupTask] at h
    by_cases hpk : pk = tid
    · simp [hpk] at h
    · rw [if_neg hpk] at h
      rw [countKey_cons, if_neg hpk, ih h]

theorem countKey_replace (m : TaskMap) (k : TaskId) (v : PrestoTask)
    (tid : TaskId) : countKey (replaceTask m k v) tid = countKey m tid := by
  induction m with
  | nil => rfl
  | cons p rest ih =>
    obtain ⟨pk, pt⟩ := p
    simp only [replaceTask]
    rw [countKey_cons, countKey_cons, ih]

theorem countKey_eq_one_of_wf (m : TaskMap) (tid : TaskId) (t : PrestoTask)
    (hw : wfMap m) (h : lookupTask m tid = some t) : countKey m tid = 1 := by
  induction m with
  | nil => exact Option.noConfusion h
  | cons p rest ih =>
    obtain ⟨pk, pt⟩ := p
    simp only [wfMap, List.map_cons, List.nodup_cons] at hw
    simp only [lookupTask] at h
    by_cases hpk : pk = tid
    · subst hpk
      rw [countKey_cons, if_pos rfl,
        countKey_of_lookup_none rest pk (lookupTask_none_of_not_mem rest pk hw.1)]
    · rw [if_neg hpk] at h
      rw [countKey_cons, if_neg hpk, ih hw.2 h]

theorem replaceTask_replaceTask (m : TaskMap) (k : TaskId)
    (v w : PrestoTask) :
    replaceTask (replaceTask m k v) k w = replaceTask m k w := by
  induction m with
  | nil => rfl
  | cons p rest ih =>
    obtain ⟨pk, pt⟩ := p
    simp only [replaceTask, ih]
    by_cases hpk : pk = k
    · simp [hpk]
    · simp [hpk]

/-- Merging a request whose data is already present leaves the task
unchanged. -/
theorem mergeUpdate_absorb (t : PrestoTask) (req : UpdateRequest)
    (hs : ∀ s ∈ req.sources, s ∈ t.sources)
    (hb : t.outputBuffers = req.outputBuffers) : mergeUpdate t req = t := by
  have hnil : req.sources.filter (fun s => ¬ s ∈ t.sources) = [] := by
    rw [List.filter_eq_nil_iff]
    intro a ha
    simp only [decide_eq_true_eq, Decidable.not_not]
    exact hs a ha
  simp only [mergeUpdate, hnil, List.append_nil, ← hb]

/-- Merging the same request twice is the same as merging it once. -/
theorem mergeUpdate_idem (t : PrestoTask) (req : UpdateRequest) :
    mergeUpdate (mergeUpdate t req) req = mergeUpdate t req := by
  apply mergeUpdate_absorb
  · intro s hsr
    simp only [mergeUpdate, List.mem_append]
    by_cases hst : s ∈ t.sources
    · exact Or.inl hst
    · refine Or.inr ?_
      rw [List.mem_filter]
      exact ⟨hsr, by simpa using hst⟩
  · rfl

/-- C2: `createOrUpdateTask` is idempotent: the first call for a task
id leaves exactly one Task State Object for it in the registry, and a
duplicate call with an identical payload changes nothing — it returns
the identical registry (one object, same driver/source sets, no
restart) and the identical TaskInfo snapshot. -/
theorem createOrUpdateTask_idempotent (m : TaskMap) (tid : TaskId)
    (req : UpdateRequest) (now now' : Nat) (hw : wfMap m) :
    countKey (createOrUpdateTask m tid req now).1 tid = 1 ∧
    createOrUpdateTask (createOrUpdateTask m tid req now).1 tid req now'
      = createOrUpdateTask m tid req now := by
  cases hl : lookupTask m tid with
  | none =>
    have h1 : createOrUpdateTask m tid req now
        = ((tid, newTask tid req now) :: m, taskInfoOf (newTask tid req now)) := by
      simp only [createOrUpdateTask, hl]
    rw [h1]
    constructor
    · rw [countKey_cons, if_pos rfl, countKey_of_lookup_none m tid hl]
    · have hlook : lookupTask ((tid, newTask tid req now) :: m) tid
          = some (newTask tid req now) := by
        rw [lookupTask_cons, if_pos rfl]
      have habs : mergeUpdate (newTask tid req now) req = newTask tid req now :=
        mergeUpdate_absorb _ _ (fun s hsr => hsr) rfl
      simp only [createOrUpdateTask, hlook, habs, replaceTask, if_pos rfl,
        if_true, replaceTask_of_lookup_none m tid (newTask tid req now) hl]
  | some u =>
    have h1 : createOrUpdateTask m tid req now
        = (replaceTask m tid (mergeUpdate u req),
            taskInfoOf (mergeUpdate u req)) := by
      simp only [createOrUpdateTask, hl]
    rw [h1]
    constructor
    · rw [countKey_replace]
      exact countKey_eq_one_of_wf m tid u hw hl
    · have hlook : lookupTask (replaceTask m tid (mergeUpdate u req)) tid
          = some (mergeUpdate u req) := by
        rw [lookupTask_replace, if_pos rfl, hl]
        rfl
      simp only [createOrUpdateTask, hlook, mergeUpdate_idem,
        replaceTask_replaceTask]

/-- Witness for C2: creating task `t3` in the demo registry and
repeating the identical call converges to one entry and an identical
snapshot. -/
theorem createOrUpdateTask_idempotent_witness :
    wfMap demoMap ∧
    countKey (createOrUpdateTask demoMap "t3" ⟨["sA"], [0]⟩ 7).1 "t3" = 1 ∧
    createOrUpdateTask (createOrUpdateTask demoMap "t3" ⟨["sA"], [0]⟩ 7).1
        "t3" ⟨["sA"], [0]⟩ 8
      = createOrUpdateTask demoMap "t3" ⟨["sA"], [0]⟩ 7 :=
  ⟨by decide,
    (createOrUpdateTask_idempotent demoMap "t3" ⟨["sA"], [0]⟩ 7 8
      (by decide)).1,
    (createOrUpdateTask_idempotent demoMap "t3" ⟨["sA"], [0]⟩ 7 8
      (by decide)).2⟩

/-- C3: the long-poll dispatch rule of `getTaskStatus` (and, with the
same waiter mechanism, `getTaskInfo`): an unknown task fails at once
with NotFound; an absent or stale `currentState` resolves at once with
the current snapshot; otherwise the poll resolves with the first
state-affecting mutation before `maxWait`, or with the unchanged
current snapshot when `maxWait` elapses. -/
theorem getTaskStatus_longPoll (m : TaskMap) (tid : TaskId)
    (cs : Option TaskState) (maxWait : Nat)
    (muts : List (Nat × TaskStatusSnap)) :
    (lookupTask m tid = none →
      getTaskStatusPoll m tid cs maxWait muts = none) ∧
    (∀ t, lookupTask m tid = some t → cs ≠ some t.state →
      getTaskStatusPoll m tid cs maxWait muts = some (0, statusSnap t)) ∧
    (∀ t, lookupTask m tid = some t → cs = some t.state →
      (muts.find? (fun p => decide (p.1 < maxWait)) = none →
        getTaskStatusPoll m tid cs maxWait muts
          = some (maxWait, statusSnap t)) ∧
      (∀ p, muts.find? (fun p => decide (p.1 < maxWait)) = some p →
        getTaskStatusPoll m tid cs maxWait muts = some p ∧ p.1 < maxWait)) := by
  refine ⟨?_, ?_, ?_⟩
  · intro h
    simp only [getTaskStatusPoll, h]
  · intro t h hne
    simp only [getTaskStatusPoll, h, if_neg hne]
  · intro t h heq
    constructor
    · intro hfind
      simp only [getTaskStatusPoll, h, if_pos heq, hfind]
    · intro p hfind
      refine ⟨by simp only [getTaskStatusPoll, h, if_pos heq, hfind], ?_⟩
      have := List.find?_some hfind
      simpa using this

/-- Witness for C3: polling the running demo task with a matching
`currentState` and no mutation before the deadline resolves at
`maxWait` with the unchanged snapshot. -/
theorem getTaskStatus_longPoll_witness :
    lookupTask demoMap "t2" = some demoRunningTask ∧
    some TaskState.Running = some demoRunningTask.state ∧
    ([(9, statusSnap demoFinishedTask)].find?
        (fun p => decide (p.1 < 5)) = none) ∧
    getTaskStatusPoll demoMap "t2" (some TaskState.Running) 5
        [(9, statusSnap demoFinishedTask)]
      = some (5, statusSnap demoRunningTask) :=
  ⟨by decide, by decide, by decide,
    ((getTaskStatus_longPoll demoMap "t2" (some TaskState.Running) 5
        [(9, statusSnap demoFinishedTask)]).2.2 demoRunningTask
      (by decide) (by decide)).1 (by decide)⟩

theorem lookupTask_filter (m : TaskMap) (f : TaskId × PrestoTask → Bool)
    (tid : TaskId) (t : PrestoTask) (hw : wfMap m)
    (h : lookupTask m tid = some t) :
    lookupTask (m.filter f) tid = if f (tid, t) then some t else none := by
  induction m with
  | nil => exact Option.noConfusion h
  | cons p rest ih =>
    obtain ⟨pk, pt⟩ := p
    simp only [wfMap, List.map_cons, List.nodup_cons] at hw
    simp only [lookupTask] at h
    simp only [List.filter_cons]
    by_cases hpk : pk = tid
    · subst hpk
      rw [if_pos rfl] at h
      cases h
      by_cases hf : f (pk, t) = true
      · rw [if_pos hf, lookupTask_cons, if_pos rfl, if_pos hf]
      · rw [if_neg hf, if_neg hf]
        apply lookupTask_none_of_not_mem
        intro hmem
        apply hw.1
        obtain ⟨q, hq, hqk⟩ := List.mem_map.mp hmem
        exact List.mem_map.mpr ⟨q, (List.mem_filter.mp hq).1, hqk⟩
    · rw [if_neg hpk] at h
      by_cases hf : f (pk, pt) = true
      · rw [if_pos hf, lookupTask_cons, if_neg hpk]
        exact ih hw.2 h
      · rw [if_neg hf]
        exact ih hw.2 h

theorem clean_split (m : TaskMap) (now threshold : Nat) :
    (m.filter (fun p => shouldClean now threshold p.2)).length
      + (m.filter (fun p => !(shouldClean now threshold p.2))).length
      = m.length := by
  induction m with
  | nil => rfl
  | cons p rest ih =>
    cases hc : shouldClean now threshold p.2 <;>
      simp [List.filter_cons, hc] <;> omega

/-- C4: `cleanOldTasks` removes a task from the registry iff the task
is terminal, its age since becoming terminal has reached the retention
threshold, and it has no pending waiter; it returns the exact number
of removed tasks, and afterwards the registry contains no task
satisfying all three removal conditions. -/
theorem cleanOldTasks_spec (m : TaskMap) (now threshold : Nat)
    (hw : wfMap m) :
    (∀ tid t, lookupTask m tid = some t →
      lookupTask (cleanOldTasks m now threshold).1 tid
        = if shouldClean now threshold t then none else some t) ∧
    (cleanOldTasks m now threshold).2
      = (m.filter (fun p => shouldClean now threshold p.2)).length ∧
    (∀ p ∈ (cleanOldTasks m now threshold).1,
      ¬ (p.2.state.isTerminal = true ∧ threshold ≤ now - p.2.terminalAt ∧
          p.2.pendingWaiters = 0)) := by
  refine ⟨?_, ?_, ?_⟩
  · intro tid t h
    have := lookupTask_filter m
      (fun p => !(shouldClean now threshold p.2)) tid t hw h
    simp only [cleanOldTasks]
    rw [this]
    cases hc : shouldClean now threshold t <;> simp [hc]
  · have hsplit := clean_split m now threshold
    simp only [cleanOldTasks]
    omega
  · intro p hp hcond
    simp only [cleanOldTasks] at hp
    obtain ⟨hmem, hkeep⟩ := List.mem_filter.mp hp
    have hc : shouldClean now threshold p.2 = true := by
      simp only [shouldClean, hcond.1, Bool.true_and]
      simp [hcond.2.1, hcond.2.2]
    simp [hc] at hkeep

/-- Witness for C4: in the demo registry at time 10 with retention 3,
the old finished task `t1` is removed (and counted), the running task
is kept. -/
theorem cleanOldTasks_spec_witness :
    wfMap demoMap ∧
    lookupTask demoMap "t1" = some demoFinishedTask ∧
    lookupTask (cleanOldTasks demoMap 10 3).1 "t1"
      = (if shouldClean 10 3 demoFinishedTask then none
          else some demoFinishedTask) ∧
    (cleanOldTasks demoMap 10 3).2
      = (demoMap.filter (fun p => shouldClean 10 3 p.2)).length :=
  ⟨by decide, by decide,
    (cleanOldTasks_spec demoMap 10 3 (by decide)).1 "t1" demoFinishedTask
      (by decide),
    (cleanOldTasks_spec demoMap 10 3 (by decide)).2.1⟩

/-- C5: `acknowledgeResults` is monotonic: after acknowledging token
T1 on a buffer, a later acknowledgement with any token T2 ≤ T1 (a
lower token, or a repeat of the same token) leaves the buffer state
unchanged — no rollback and no re-release. -/
theorem acknowledgeResults_monotonic (bufs : BufferAckMap) (tid : TaskId)
    (bufferId T1 T2 : Int) (h : T2 ≤ T1) :
    acknowledgeResults (acknowledgeResults bufs tid bufferId T1)
        tid bufferId T2
      = acknowledgeResults bufs tid bufferId T1 := by
  induction bufs with
  | nil => rfl
  | cons e rest ih =>
    simp only [acknowledgeResults, List.map_cons]
    simp only [acknowledgeResults] at ih
    congr 1
    by_cases he : e.1 = (tid, bufferId)
    · simp [he, max_assoc, max_eq_left h]
    · simp [he]

/-- Witness for C5: acknowledging token 7 then token 6 on buffer 0 of
task `t1` leaves the acknowledgement state of the first call. -/
theorem acknowledgeResults_monotonic_witness :
    (6 : Int) ≤ 7 ∧
    acknowledgeResults (acknowledgeResults demoBufs "t1" 0 7) "t1" 0 6
      = acknowledgeResults demoBufs "t1" 0 7 :=
  ⟨by decide, acknowledgeResults_monotonic demoBufs "t1" 0 7 6 (by decide)⟩

/-- C6: `getDataForResultRequests` fulfills every pending request, and
a request whose task has no output buffer recorded in the controller
is fulfilled with an empty Result whose completed flag is false,
rather than failing. -/
theorem getDataForResultRequests_graceful (controller : BufferDataMap)
    (pending : List ResultRequest) :
    (getDataForResultRequests controller pending).map Prod.fst = pending ∧
    (∀ r res, (r, res) ∈ getDataForResultRequests controller pending →
      controller.lookup r.taskId = none →
      res = { data := [], completed := false }) := by
  constructor
  · induction pending with
    | nil => rfl
    | cons q rest ih =>
      simp only [getDataForResultRequests, List.map_cons] at *
      congr 1
      cases controller.lookup q.taskId <;> rfl
  · intro r res hmem hnone
    induction pending with
    | nil => simp [getDataForResultRequests] at hmem
    | cons q rest ih =>
      simp only [getDataForResultRequests, List.map_cons,
        List.mem_cons] at hmem
      cases hmem with
      | inl heq =>
        cases hl : controller.lookup q.taskId with
        | none =>
          rw [hl] at heq
          simp only [Prod.mk.injEq] at heq
          exact heq.2
        | some pages =>
          rw [hl] at heq
          simp only [Prod.mk.injEq] at heq
          rw [← heq.1, hnone] at hl
          exact Option.noConfusion hl
      | inr hmem' =>
        simp only [getDataForResultRequests] at ih
        exact ih hmem'

/-- Witness for C6: the pending request for the torn-down task
`tGone` is fulfilled with an empty, not-completed Result. -/
theorem getDataForResultRequests_graceful_witness :
    ((⟨"tGone", 0, 0⟩ : ResultRequest),
        ({ data := [], completed := false } : Result))
      ∈ getDataForResultRequests demoController demoPending ∧
    demoController.lookup (ResultRequest.taskId ⟨"tGone", 0, 0⟩) = none ∧
    ({ data := [], completed := false } : Result)
      = { data := [], completed := false } :=
  ⟨by decide, by decide,
    (getDataForResultRequests_graceful demoController demoPending).2
      ⟨"tGone", 0, 0⟩ { data := [], completed := false }
      (by decide) (by decide)⟩

/-- A status poll on a registered task never reports NotFound. -/
theorem getTaskStatusPoll_ne_none_of_found (m : TaskMap) (tid : TaskId)
    (cs : Option TaskState) (maxWait : Nat)
    (muts : List (Nat × TaskStatusSnap)) (t : PrestoTask)
    (h : lookupTask m tid = some t) :
    getTaskStatusPoll m tid cs maxWait muts ≠ none := by
  simp only [getTaskStatusPoll, h]
  by_cases hcs : cs = some t.state
  · rw [if_pos hcs]
    cases muts.find? (fun p => decide (p.1 < maxWait)) <;> simp
  · rw [if_neg hcs]
    simp

/-- C7: `createOrUpdateErrorTask` puts the task directly into Failed
state carrying the given error; a task created this way has no running
driver (no fragment was ever executed); and a subsequent status/info
poll finds the task — it observes Failed with the captured error
rather than NotFound. -/
theorem createOrUpdateErrorTask_spec (m : TaskMap) (tid : TaskId)
    (e : ErrorInfo) (now : Nat) (cs : Option TaskState) (maxWait : Nat)
    (muts : List (Nat × TaskStatusSnap)) :
    (createOrUpdateErrorTask m tid e now).2.state = TaskState.Failed ∧
    (createOrUpdateErrorTask m tid e now).2.error = some e ∧
    (lookupTask m tid = none →
      (createOrUpdateErrorTask m tid e now).2.numRunningDrivers = 0) ∧
    Option.map (fun t => (t.state, t.error))
        (lookupTask (createOrUpdateErrorTask m tid e now).1 tid)
      = some (TaskState.Failed, some e) ∧
    getTaskStatusPoll (createOrUpdateErrorTask m tid e now).1 tid cs
        maxWait muts ≠ none := by
  cases hl : lookupTask m tid with
  | none =>
    have h1 : createOrUpdateErrorTask m tid e now
        = ((tid, errorTask tid e now) :: m,
            taskInfoOf (errorTask tid e now)) := by
      simp only [createOrUpdateErrorTask, hl]
    rw [h1]
    refine ⟨rfl, rfl, fun _ => rfl, ?_, ?_⟩
    · rw [lookupTask_cons, if_pos rfl]
      rfl
    · apply getTaskStatusPoll_ne_none_of_found (t := errorTask tid e now)
      rw [lookupTask_cons, if_pos rfl]
  | some u =>
    have h1 : createOrUpdateErrorTask m tid e now
        = (replaceTask m tid
            { u with state := .Failed, error := some e, terminalAt := now },
          taskInfoOf
            { u with state := .Failed, error := some e, terminalAt := now }) := by
      simp only [createOrUpdateErrorTask, hl]
    rw [h1]
    have hlook : lookupTask (replaceTask m tid
        { u with state := .Failed, error := some e, terminalAt := now }) tid
        = some { u with state := .Failed, error := some e, terminalAt := now } := by
      rw [lookupTask_replace, if_pos rfl, hl]
      rfl
    refine ⟨rfl, rfl, ?_, ?_, ?_⟩
    · intro hn
      exact Option.noConfusion hn
    · rw [hlook]
      rfl
    · exact getTaskStatusPoll_ne_none_of_found _ _ _ _ _ _ hlook

/-- Witness for C7: synthesizing an error task for the fresh id `t9`
in the demo registry; the follow-up poll finds Failed with the error. -/
theorem createOrUpdateErrorTask_spec_witness :
    (createOrUpdateErrorTask demoMap "t9" ⟨"boom"⟩ 4).2.state
      = TaskState.Failed ∧
    (createOrUpdateErrorTask demoMap "t9" ⟨"boom"⟩ 4).2.error
      = some ⟨"boom"⟩ ∧
    lookupTask demoMap "t9" = none ∧
    (createOrUpdateErrorTask demoMap "t9" ⟨"boom"⟩ 4).2.numRunningDrivers
      = 0 ∧
    Option.map (fun t => (t.state, t.error))
        (lookupTask (createOrUpdateErrorTask demoMap "t9" ⟨"boom"⟩ 4).1 "t9")
      = some (TaskState.Failed, some ⟨"boom"⟩) ∧
    getTaskStatusPoll (createOrUpdateErrorTask demoMap "t9" ⟨"boom"⟩ 4).1
        "t9" none 5 [] ≠ none :=
  ⟨(createOrUpdateErrorTask_spec demoMap "t9" ⟨"boom"⟩ 4 none 5 []).1,
   (createOrUpdateErrorTask_spec demoMap "t9" ⟨"boom"⟩ 4 none 5 []).2.1,
   by decide,
   (createOrUpdateErrorTask_spec demoMap "t9" ⟨"boom"⟩ 4 none 5 []).2.2.1
     (by decide),
   (createOrUpdateErrorTask_spec demoMap "t9" ⟨"boom"⟩ 4 none 5 []).2.2.2.1,
   (createOrUpdateErrorTask_spec demoMap "t9" ⟨"boom"⟩ 4 none 5 []).2.2.2.2⟩

/-- C8: `yieldTasks` signals at most the requested number of drivers
(the returned count is the number signaled), and never signals a
driver that has continuously held its execution thread for less than
the time slice. -/
theorem yieldTasks_spec (drivers : List Driver)
    (nowMicros numTargetThreadsToYield timeSliceMicros : Nat) :
    (yieldTasks drivers nowMicros numTargetThreadsToYield
        timeSliceMicros).1 ≤ numTargetThreadsToYield ∧
    (yieldTasks drivers nowMicros numTargetThreadsToYield
        timeSliceMicros).1
      = (yieldTasks drivers nowMicros numTargetThreadsToYield
          timeSliceMicros).2.length ∧
    (∀ d ∈ (yieldTasks drivers nowMicros numTargetThreadsToYield
        timeSliceMicros).2,
      timeSliceMicros ≤ nowMicros - d.onThreadSinceMicros) := by
  refine ⟨?_, rfl, ?_⟩
  · simp only [yieldTasks, List.length_take]
    exact Nat.min_le_left _ _
  · intro d hd
    simp only [yieldTasks] at hd
    have hf := List.mem_of_mem_take hd
    have hp := List.of_mem_filter hf
    simpa using hp

/-- Witness for C8: with two drivers, a target of one and a 50µs
slice, only the long-running driver is signaled. -/
theorem yieldTasks_spec_witness :
    (yieldTasks demoDrivers 100 1 50).1 ≤ 1 ∧
    (⟨"t1", 0⟩ : Driver) ∈ (yieldTasks demoDrivers 100 1 50).2 ∧
    50 ≤ 100 - (⟨"t1", 0⟩ : Driver).onThreadSinceMicros :=
  ⟨(yieldTasks_spec demoDrivers 100 1 50).1,
   by decide,
   (yieldTasks_spec demoDrivers 100 1 50).2.2 ⟨"t1", 0⟩ (by decide)⟩

/-- C9: `buildTaskSpillDirectoryPath` always returns a non-empty
string, and two tasks with distinct task ids (same base path, node ip,
node id and query id) receive distinct paths. Determinism is inherent:
the embedding is a pure function of the five string arguments. -/
theorem buildTaskSpillDirectoryPath_spec (baseSpillPath nodeIp nodeId
    queryId : String) (t1 t2 : TaskId) (hne : t1 ≠ t2) :
    0 < (buildTaskSpillDirectoryPath baseSpillPath nodeIp nodeId queryId
        t1).length ∧
    buildTaskSpillDirectoryPath baseSpillPath nodeIp nodeId queryId t1
      ≠ buildTaskSpillDirectoryPath baseSpillPath nodeIp nodeId queryId
          t2 := by
  constructor
  · have hs1 : ("/" : String).length = 1 := rfl
    simp only [buildTaskSpillDirectoryPath, String.length_append, hs1]
    omega
  · intro h
    apply hne
    have hd := congrArg String.data h
    simp only [buildTaskSpillDirectoryPath, String.data_append] at hd
    exact String.ext
      (List.append_cancel_left (List.append_cancel_right hd))

/-- Witness for C9: two distinct task ids on the same node and query
yield distinct non-empty spill paths. -/
theorem buildTaskSpillDirectoryPath_spec_witness :
    "20.1" ≠ "20.2" ∧
    0 < (buildTaskSpillDirectoryPath "/spill" "10.0.0.1" "node0" "q1"
        "20.1").length ∧
    buildTaskSpillDirectoryPath "/spill" "10.0.0.1" "node0" "q1" "20.1"
      ≠ buildTaskSpillDirectoryPath "/spill" "10.0.0.1" "node0" "q1"
          "20.2" :=
  ⟨by decide,
   (buildTaskSpillDirectoryPath_spec "/spill" "10.0.0.1" "node0" "q1"
     "20.1" "20.2" (by decide)).1,
   (buildTaskSpillDirectoryPath_spec "/spill" "10.0.0.1" "node0" "q1"
     "20.1" "20.2" (by decide)).2⟩

/-- C10: the observers `tasks()` and `getNumTasks()` do not modify the
task registry, and each returns a value computed from the registry at
the instant of the call — `tasks()` the copy of the map, `getNumTasks()`
its size; the same holds in any state reached by a mutating operation,
and the returned copy is a value, unaffected by later insertion,
removal or cleanup of the manager's own registry. -/
theorem tasks_getNumTasks_frame (tm : TaskManager) (op : ManagerOp) :
    (TaskManager.tasks tm).1 = tm ∧
    (TaskManager.getNumTasks tm).1 = tm ∧
    (TaskManager.tasks tm).2 = tm.taskMap ∧
    (TaskManager.getNumTasks tm).2 = tm.taskMap.length ∧
    (TaskManager.tasks (managerStep tm op)).1 = managerStep tm op ∧
    (TaskManager.tasks (managerStep tm op)).2 = (managerStep tm op).taskMap :=
  ⟨rfl, rfl, rfl, rfl, rfl, rfl⟩

end Presto
